import Mathlib

/-!
# Verification of `array_builder` (`ArrayBuilder<T, N>`)

A shallow embedding of the Rust crate `array_builder` (`src/lib.rs`).

The Rust type is

```rust
pub struct ArrayBuilder<T, const N: usize> {
    buf: [MaybeUninit<T>; N],
    len: usize,
}
```

We model the backing buffer `buf` as a `List (Option T)` of length `N`:
a slot holding `some t` models initialized memory containing the value `t`,
and `none` models uninitialized memory.  `len` is a `Nat`.

Modelling conventions:

* a Rust panic (the `assert!` in `push`) is modelled by returning `none`
  from an `Option`-valued function; the builder is unchanged on that path
  because the assertion fires before any mutation;
* a read of possibly-uninitialized memory (`ptr::read` in the unchecked
  operations, `slice::from_raw_parts` in `deref`) yields the slot content
  as an `Option`; reading an uninitialized (`none`) slot is undefined
  behaviour in Rust, and all theorems about the checked API are stated
  under the structural invariant that rules it out;
* `Drop::drop` calls `clear`, whose `ptr::drop_in_place` on the live slice
  releases the live elements front to back; we model the release effect by
  returning the list of released elements in release order;
* `From::from` consumes its array parameter but never neutralizes it after
  the bitwise `ptr::read` copy, so the parameter's own drop at the end of
  the call releases all its elements; `from_call` returns that release
  list alongside the produced builder state (`fromArray`);
* operations that mutate through `&mut self` return the new builder state
  (paired with their Rust return value); operations that consume `self`
  (`build`, `build_unchecked`) return only their result.
-/

set_option autoImplicit false

namespace ArrayBuilderSpec

/-- The builder state: `buf` is the `[MaybeUninit<T>; N]` backing buffer
(`some t` = initialized with `t`, `none` = uninitialized), `len` the count
of live elements. -/
structure ArrayBuilder (T : Type) (N : Nat) where
  buf : List (Option T)
  len : Nat
  deriving DecidableEq, Repr

namespace ArrayBuilder

variable {T U : Type} {N : Nat}

/-- `ArrayBuilder::new`: an uninitialised buffer (`[Self::UNINIT; N]`) and
`len = 0`. -/
def new (T : Type) (N : Nat) : ArrayBuilder T N :=
  { buf := List.replicate N none, len := 0 }

/-- `From<[T; N]> for ArrayBuilder<T, N>`, state component only: the builder
value returned by `from(array)` — a bitwise copy (`ptr::read` of the whole
array as `[MaybeUninit<T>; N]`) with `len = N`.  The Rust array type forces
the length to be `N`, so we index the result by `a.length`.

This is NOT the full effect of the call: the by-value `array` parameter is
still live after the bitwise copy (the impl has no `mem::forget` and no
`ManuallyDrop`), so `array`'s drop glue runs when `from` returns and
releases every element once — see `from_call` for the call's complete
ownership effect. -/
def fromArray (a : List T) : ArrayBuilder T a.length :=
  { buf := a.map some, len := a.length }

/-- The complete observable effect of `From::from(array)`: the returned
builder state together with the elements released during the call itself.
The impl body is `Self { buf: ptr::read(array.as_ptr() as _), len: N }`;
`ptr::read` is a non-consuming bitwise copy and `array` is never forgotten,
so at the end of `from` the parameter `array : [T; N]`, still holding all
`N` elements, is dropped — its drop glue releases the elements front to
back, i.e. the list `a`. -/
def from_call (a : List T) : ArrayBuilder T a.length × List T :=
  (fromArray a, a)

/-- `ArrayBuilder::is_full`: `self.len == N`. -/
def is_full (b : ArrayBuilder T N) : Bool :=
  b.len == N

/-- `ArrayBuilder::is_empty`: `self.len == 0`. -/
def is_empty (b : ArrayBuilder T N) : Bool :=
  b.len == 0

/-- `Deref for ArrayBuilder`: the slice of the first `len` slots, each read
as a live `T`.  Reading an uninitialized slot is UB in Rust; here such a
slot is silently skipped (`reduceOption`), and the invariant below rules
this out for the safe API. -/
def deref (b : ArrayBuilder T N) : List T :=
  (b.buf.take b.len).reduceOption

/-- `ArrayBuilder::clear`: `ptr::drop_in_place` on the live slice `deref b`
(releasing its elements front to back), then `len = 0`.  Returns the new
state together with the list of released elements in release order; the
buffer memory itself is not rewritten. -/
def clear (b : ArrayBuilder T N) : ArrayBuilder T N × List T :=
  ({ buf := b.buf, len := 0 }, b.deref)

/-- `Drop for ArrayBuilder`: `fn drop(&mut self) { self.clear() }` — the
elements released when the builder is destroyed. -/
def dropped (b : ArrayBuilder T N) : List T :=
  (b.clear).2

/-- `ArrayBuilder::push_unchecked`: `ptr::write(self.as_mut_ptr().add(self.len), t)`
then `self.len += 1`.  (When `len ≥ buf.length` the `List.set` is a no-op,
modelling the out-of-bounds write UB as loss of the value.) -/
def push_unchecked (b : ArrayBuilder T N) (t : T) : ArrayBuilder T N :=
  { buf := b.buf.set b.len (some t), len := b.len + 1 }

/-- `ArrayBuilder::push`: `assert!(self.len < N)` then `push_unchecked`.
`none` models the panic; the assertion fires before any mutation, so the
builder is unchanged on that path. -/
def push (b : ArrayBuilder T N) (t : T) : Option (ArrayBuilder T N) :=
  if b.len < N then some (b.push_unchecked t) else none

/-- `ArrayBuilder::try_push`: push if there is space, otherwise `Err(t)`.
Returns the new state and the Rust `Result<(), T>` (modelled as `Option T`,
`some t` being `Err(t)`). -/
def try_push (b : ArrayBuilder T N) (t : T) : ArrayBuilder T N × Option T :=
  if b.len < N then (b.push_unchecked t, none) else (b, some t)

/-- `ArrayBuilder::pop_unchecked`: `self.len -= 1` then
`ptr::read(self.as_ptr().add(self.len))`.  The read value is the slot
content (an `Option`: reading an uninitialized slot is UB). -/
def pop_unchecked (b : ArrayBuilder T N) : Option T × ArrayBuilder T N :=
  (b.buf.getD (b.len - 1) none, { buf := b.buf, len := b.len - 1 })

/-- `ArrayBuilder::pop`: `pop_unchecked` if `len > 0`, else `None` with no
state change. -/
def pop (b : ArrayBuilder T N) : Option T × ArrayBuilder T N :=
  if 0 < b.len then b.pop_unchecked else (none, b)

/-- `ArrayBuilder::build_unchecked`: `ptr::read(self_.as_ptr() as *const [T; N])`
— the whole buffer read back as an array, the builder wrapped in
`ManuallyDrop` so nothing is released.  Uninitialized slots (UB) are
skipped. -/
def build_unchecked (b : ArrayBuilder T N) : List T :=
  b.buf.reduceOption

/-- `ArrayBuilder::build`: `Ok(build_unchecked())` if `len == N`, else
`Err(self)` handing the builder back untouched. -/
def build (b : ArrayBuilder T N) : Except (ArrayBuilder T N) (List T) :=
  if b.len = N then .ok b.build_unchecked else .error b

/-- `ArrayBuilder::take`: `mem::replace(self, Self::new())`.  Returns the
pair (new state of the variable, returned builder). -/
def take (b : ArrayBuilder T N) : ArrayBuilder T N × ArrayBuilder T N :=
  (new T N, b)

/-- `PartialEq for ArrayBuilder`: `self.deref() == other.deref()` — slice
equality of the live prefixes. -/
def beq [BEq T] (b₁ b₂ : ArrayBuilder T N) : Bool :=
  b₁.deref == b₂.deref

/-- Lexicographic slice comparison, as implemented by `Ord for [T]` in Rust:
compare elementwise; at the first non-equal pair that result decides; if one
side runs out first, the shorter slice is less. -/
def slice_cmp (cmp : T → T → Ordering) : List T → List T → Ordering
  | [], [] => .eq
  | [], _ :: _ => .lt
  | _ :: _, [] => .gt
  | x :: xs, y :: ys =>
    match cmp x y with
    | .eq => slice_cmp cmp xs ys
    | o => o

/-- `Ord for ArrayBuilder`: `self.deref().cmp(other.deref())`, with the
element comparison passed explicitly (Rust's `T: Ord`). -/
def ord_cmp (cmp : T → T → Ordering) (b₁ b₂ : ArrayBuilder T N) : Ordering :=
  slice_cmp cmp b₁.deref b₂.deref

/-- `pushAll`: iterate `push` over a list of values, propagating a panic. -/
def pushAll (b : ArrayBuilder T N) : List T → Option (ArrayBuilder T N)
  | [] => some b
  | t :: ts =>
    match b.push t with
    | none => none
    | some b' => b'.pushAll ts

/-- The structural invariant of the type: the buffer has length `N`,
`len ≤ N`, and every slot in `[0, len)` is initialized. -/
def Invariant (b : ArrayBuilder T N) : Prop :=
  b.buf.length = N ∧ b.len ≤ N ∧ ∀ i, i < b.len → (b.buf.getD i none).isSome

instance (b : ArrayBuilder T N) : Decidable b.Invariant := by
  unfold Invariant
  infer_instance

/-- Two builders are observationally equal when they agree on the length and
on the live prefix; the contents of the uninitialized suffix may differ. -/
def ObsEq (b₁ b₂ : ArrayBuilder T N) : Prop :=
  b₁.len = b₂.len ∧ b₁.deref = b₂.deref

instance [DecidableEq T] (b₁ b₂ : ArrayBuilder T N) : Decidable (ObsEq b₁ b₂) := by
  unfold ObsEq
  infer_instance

/-- A capacity-8 builder after three pushes (concrete witness input). -/
def sampleC1 : ArrayBuilder Nat 8 :=
  { buf := [some 1, some 2, some 3, none, none, none, none, none], len := 3 }

/-- A capacity-2 builder after one push (concrete witness input). -/
def sampleC4 : ArrayBuilder Nat 2 :=
  { buf := [some 5, none], len := 1 }

/-- A capacity-2 builder after one push (concrete witness input). -/
def sampleC5 : ArrayBuilder Nat 2 :=
  { buf := [some 5, none], len := 1 }

/-- A full capacity-2 builder (concrete witness input). -/
def sampleC5full : ArrayBuilder Nat 2 :=
  { buf := [some 5, some 6], len := 2 }

/-- A capacity-2 builder after one push (concrete witness input). -/
def sampleC6 : ArrayBuilder Nat 2 :=
  { buf := [some 5, none], len := 1 }

/-- A full capacity-2 builder (concrete witness input). -/
def sampleC6full : ArrayBuilder Nat 2 :=
  { buf := [some 5, some 6], len := 2 }

/-- A capacity-3 builder after two pushes (concrete witness input). -/
def sampleC7 : ArrayBuilder Nat 3 :=
  { buf := [some 1, some 2, none], len := 2 }

/-- A capacity-3 builder after two pushes (concrete witness input). -/
def sampleC9a : ArrayBuilder Nat 3 :=
  { buf := [some 1, some 2, none], len := 2 }

/-- A capacity-3 builder with the same live prefix as `sampleC9a` but a
different (garbage) value in its unused slot (concrete witness input). -/
def sampleC9b : ArrayBuilder Nat 3 :=
  { buf := [some 1, some 2, some 99], len := 2 }

/-- A capacity-2 builder after one push (concrete witness input). -/
def sampleC10a : ArrayBuilder Nat 2 :=
  { buf := [some 1, none], len := 1 }

/-- A capacity-2 builder with the same live prefix as `sampleC10a` but a
different (garbage) value in its unused slot (concrete witness input). -/
def sampleC10b : ArrayBuilder Nat 2 :=
  { buf := [some 1, some 9], len := 1 }

/-! ### Helper lemmas -/

theorem reduceOption_map_some_eq :
    ∀ {l : List (Option T)}, (∀ x ∈ l, x.isSome) → l.reduceOption.map some = l
  | [], _ => rfl
  | none :: _, h => absurd (h none (by simp)) (by simp)
  | some a :: tl, h => by
    have ih := reduceOption_map_some_eq (l := tl) fun x hx => h x (by simp [hx])
    simp [List.reduceOption_cons_of_some, ih]

theorem invariant_slots {b : ArrayBuilder T N} (h : b.Invariant) :
    ∀ x ∈ b.buf.take b.len, x.isSome := by
  intro x hx
  rcases List.mem_iff_getElem?.mp hx with ⟨i, hi⟩
  have hilt : i < b.len := by
    have := (List.getElem?_eq_some_iff.mp hi).1
    simp only [List.length_take] at this
    omega
  rw [List.getElem?_take_of_lt hilt] at hi
  have hslot := h.2.2 i hilt
  rw [List.getD_eq_getElem?_getD, hi] at hslot
  simpa using hslot

theorem take_map_some {b : ArrayBuilder T N} (h : b.Invariant) :
    b.buf.take b.len = b.deref.map some :=
  (reduceOption_map_some_eq (invariant_slots h)).symm

theorem deref_length {b : ArrayBuilder T N} (h : b.Invariant) :
    b.deref.length = b.len := by
  have hc := congrArg List.length (take_map_some h)
  simp only [List.length_take, List.length_map] at hc
  have hle : b.len ≤ b.buf.length := by rw [h.1]; exact h.2.1
  omega

theorem slot_eq_deref_getElem? {b : ArrayBuilder T N} (h : b.Invariant)
    {i : Nat} (hi : i < b.len) : b.buf.getD i none = b.deref[i]? := by
  rw [List.getD_eq_getElem?_getD, ← List.getElem?_take_of_lt (l := b.buf) hi,
    take_map_some h, List.getElem?_map]
  cases b.deref[i]? <;> simp

theorem deref_new : (new T N).deref = [] := by
  simp [new, deref]

theorem invariant_new : (new T N).Invariant := by
  refine ⟨by simp [new], by simp [new], ?_⟩
  intro i hi
  simp [new] at hi

theorem invariant_fromArray (a : List T) : (fromArray a).Invariant := by
  refine ⟨by simp [fromArray], by simp [fromArray], ?_⟩
  intro i hi
  simp only [fromArray] at hi ⊢
  rw [List.getD_eq_getElem?_getD, List.getElem?_map, List.getElem?_eq_getElem hi]
  simp

theorem deref_fromArray (a : List T) : (fromArray a).deref = a := by
  refine List.map_injective_iff.mpr (Option.some_injective T) ?_
  rw [← take_map_some (invariant_fromArray a)]
  show (a.map some).take a.length = a.map some
  rw [← List.length_map a some, List.take_length]

theorem buf_push_unchecked_take {b : ArrayBuilder T N} (t : T)
    (h : b.Invariant) (hlt : b.len < N) :
    (b.push_unchecked t).buf.take (b.push_unchecked t).len
      = b.buf.take b.len ++ [some t] := by
  show (b.buf.set b.len (some t)).take (b.len + 1) = _
  rw [List.take_succ]
  congr 1
  · rw [List.set_take]
    refine List.set_eq_of_length_le ?_
    simp [List.length_take]
  · rw [List.getElem?_set_self (by rw [h.1]; exact hlt)]
    rfl

theorem deref_push_unchecked {b : ArrayBuilder T N} (t : T)
    (h : b.Invariant) (hlt : b.len < N) :
    (b.push_unchecked t).deref = b.deref ++ [t] := by
  rw [deref, buf_push_unchecked_take t h hlt, List.reduceOption_append]
  rfl

theorem invariant_push_unchecked {b : ArrayBuilder T N} (t : T)
    (h : b.Invariant) (hlt : b.len < N) :
    (b.push_unchecked t).Invariant := by
  refine ⟨by simp [push_unchecked, h.1], by simp [push_unchecked]; omega, ?_⟩
  intro i hi
  simp only [push_unchecked] at hi ⊢
  rw [List.getD_eq_getElem?_getD, List.getElem?_set]
  by_cases hib : b.len = i
  · subst hib
    simp [h.1, hlt]
  · have hi' : i < b.len := by omega
    rw [if_neg hib, ← List.getD_eq_getElem?_getD]
    exact h.2.2 i hi'

theorem take_pred_map_some {b : ArrayBuilder T N} (h : b.Invariant) :
    b.buf.take (b.len - 1) = (b.deref.take (b.len - 1)).map some := by
  have h1 : b.buf.take (b.len - 1) = (b.buf.take b.len).take (b.len - 1) := by
    rw [List.take_take, Nat.min_eq_left (Nat.sub_le _ _)]
  rw [h1, take_map_some h, List.map_take]

theorem deref_pop_state {b : ArrayBuilder T N} (h : b.Invariant) :
    ({ buf := b.buf, len := b.len - 1 } : ArrayBuilder T N).deref
      = b.deref.take (b.len - 1) := by
  show (b.buf.take (b.len - 1)).reduceOption = _
  rw [take_pred_map_some h]
  refine List.map_injective_iff.mpr (Option.some_injective T) ?_
  exact reduceOption_map_some_eq (by intro x hx; rcases List.mem_map.mp hx with ⟨y, _, hy⟩; simp [← hy])

theorem invariant_pop_state {b : ArrayBuilder T N} (h : b.Invariant) :
    ({ buf := b.buf, len := b.len - 1 } : ArrayBuilder T N).Invariant :=
  ⟨h.1, Nat.le_trans (Nat.sub_le _ _) h.2.1,
    fun i hi => h.2.2 i (Nat.lt_of_lt_of_le hi (Nat.sub_le _ _))⟩

theorem pop_unchecked_spec {b : ArrayBuilder T N} (h : b.Invariant)
    (hpos : 0 < b.len) :
    ∃ x, b.pop_unchecked = (some x, { buf := b.buf, len := b.len - 1 }) ∧
      b.deref = b.pop_unchecked.2.deref ++ [x] := by
  have hsl := h.2.2 (b.len - 1) (by omega)
  rcases Option.isSome_iff_exists.mp hsl with ⟨x, hx⟩
  refine ⟨x, ?_, ?_⟩
  · simp only [pop_unchecked, hx]
  · have hlen : b.len - 1 + 1 = b.len := by omega
    have hget : b.buf[b.len - 1]? = some (some x) := by
      have hlt : b.len - 1 < b.buf.length := by
        have hbl := h.2.1
        rw [h.1]
        omega
      rw [List.getD_eq_getElem?_getD, List.getElem?_eq_getElem hlt] at hx
      rw [List.getElem?_eq_getElem hlt]
      simpa using hx
    calc b.deref = (b.buf.take (b.len - 1 + 1)).reduceOption := by
          rw [deref, hlen]
      _ = (b.buf.take (b.len - 1) ++ (b.buf[b.len - 1]?).toList).reduceOption := by
          rw [List.take_succ]
      _ = (b.buf.take (b.len - 1)).reduceOption ++ [x] := by
          rw [hget, List.reduceOption_append]
          rfl
      _ = b.pop_unchecked.2.deref ++ [x] := rfl

theorem build_full {b : ArrayBuilder T N} (h : b.Invariant) (hfull : b.len = N) :
    b.build = .ok b.deref := by
  rw [build, if_pos hfull]
  have : b.buf.take b.len = b.buf := by
    rw [show b.len = b.buf.length from by rw [h.1, hfull]]
    exact List.take_length _
  rw [build_unchecked, show b.deref = b.buf.reduceOption from by rw [deref, this]]

theorem build_not_full {b : ArrayBuilder T N} (hlt : b.len ≠ N) :
    b.build = .error b := by
  rw [build, if_neg hlt]

theorem invariant_clear_state {b : ArrayBuilder T N} (h : b.Invariant) :
    (b.clear).1.Invariant :=
  ⟨h.1, Nat.zero_le _, fun i hi => absurd hi (by simp [clear])⟩

theorem dropped_map_some {b : ArrayBuilder T N} (h : b.Invariant) :
    b.dropped.map some = b.buf.take b.len :=
  (take_map_some h).symm

theorem push_some {b : ArrayBuilder T N} {t : T} (hlt : b.len < N) :
    b.push t = some (b.push_unchecked t) := by
  rw [push, if_pos hlt]

theorem push_none {b : ArrayBuilder T N} {t : T} (hge : ¬ b.len < N) :
    b.push t = none := by
  rw [push, if_neg hge]

theorem pushAll_spec :
    ∀ (ts : List T) (b : ArrayBuilder T N), b.Invariant →
      b.len + ts.length ≤ N →
      ∃ b', b.pushAll ts = some b' ∧ b'.Invariant ∧
        b'.len = b.len + ts.length ∧ b'.deref = b.deref ++ ts
  | [], b, hInv, _ => ⟨b, rfl, hInv, by simp, by simp⟩
  | t :: ts, b, hInv, hle => by
    have hlt : b.len < N := by
      have := hle
      simp only [List.length_cons] at this
      omega
    have hInv' := invariant_push_unchecked t hInv hlt
    have hlen' : (b.push_unchecked t).len = b.len + 1 := rfl
    rcases pushAll_spec ts (b.push_unchecked t) hInv'
        (by rw [hlen']; simp only [List.length_cons] at hle; omega) with
      ⟨b', hrun, hInv'', hlen'', hderef''⟩
    refine ⟨b', ?_, hInv'', ?_, ?_⟩
    · rw [pushAll, push_some hlt]
      exact hrun
    · rw [hlen'', hlen', List.length_cons]
      omega
    · rw [hderef'', deref_push_unchecked t hInv hlt]
      simp

theorem slice_cmp_self_append (cmp : T → T → Ordering)
    (hc : ∀ x, cmp x x = .eq) :
    ∀ (p : List T) (y : T) (rest : List T),
      slice_cmp cmp p (p ++ y :: rest) = .lt
  | [], _, _ => rfl
  | x :: p', y, rest => by
    show slice_cmp cmp (x :: p') (x :: (p' ++ y :: rest)) = .lt
    rw [slice_cmp, hc x]
    exact slice_cmp_self_append cmp hc p' y rest

theorem slice_cmp_first_diff (cmp : T → T → Ordering)
    (hc : ∀ x, cmp x x = .eq) :
    ∀ (p : List T) (x y : T) (xs ys : List T), cmp x y ≠ .eq →
      slice_cmp cmp (p ++ x :: xs) (p ++ y :: ys) = cmp x y
  | [], x, y, xs, ys, hxy => by
    show slice_cmp cmp (x :: xs) (y :: ys) = cmp x y
    rw [slice_cmp]
    rcases ho : cmp x y <;> simp_all
  | z :: p', x, y, xs, ys, hxy => by
    show slice_cmp cmp (z :: (p' ++ x :: xs)) (z :: (p' ++ y :: ys)) = cmp x y
    rw [slice_cmp, hc z]
    exact slice_cmp_first_diff cmp hc p' x y xs ys hxy

/-! ### Claim theorems -/

/-- Claim C1: destroying a builder that still owns elements (the `Drop`
impl, which calls `clear`) releases exactly the `len` live elements in
slots `[0, len)`, one release per live slot in slot order (so each exactly
once), reads or releases nothing in `[len, N)` (the released sequence
matches the live slots one-to-one), and leaves `len = 0` with the invariant
intact. -/
theorem drop_releases_live_prefix_exactly_once {T : Type} {N : Nat}
    (b : ArrayBuilder T N) (h : b.Invariant) :
    b.dropped.length = b.len ∧
    b.dropped.map some = b.buf.take b.len ∧
    (b.clear).1.len = 0 ∧
    (b.clear).1.Invariant ∧
    (b.clear).2 = b.dropped :=
  ⟨deref_length h, dropped_map_some h, rfl, invariant_clear_state h, rfl⟩

/-- Witness for C1: dropping a capacity-8 builder after 3 pushes releases
exactly those 3 elements, once each. -/
theorem drop_releases_live_prefix_exactly_once_witness :
    sampleC1.Invariant ∧
      (sampleC1.dropped.length = sampleC1.len ∧
       sampleC1.dropped.map some = sampleC1.buf.take sampleC1.len ∧
       (sampleC1.clear).1.len = 0 ∧
       (sampleC1.clear).1.Invariant ∧
       (sampleC1.clear).2 = sampleC1.dropped) :=
  ⟨by decide, drop_releases_live_prefix_exactly_once sampleC1 (by decide)⟩

/-- Claim C2: for every capacity `N` (including `N = 0`) and every sequence
of `N` pushes into an empty builder, no intermediate builder (after `k < N`
pushes) is full, the builder after the `N`-th push is full, and `build()`
then succeeds with exactly the pushed elements in insertion order. -/
theorem pushN_is_full_and_build_ok {T : Type} {N : Nat} (ts : List T)
    (hts : ts.length = N) :
    (∀ k, k < N → ∃ bk, (new T N).pushAll (ts.take k) = some bk ∧
      bk.is_full = false) ∧
    (∃ b, (new T N).pushAll ts = some b ∧ b.is_full = true ∧
      b.build = Except.ok ts) := by
  constructor
  · intro k hk
    have hlen : (ts.take k).length = k := by
      rw [List.length_take]
      omega
    rcases pushAll_spec (ts.take k) (new T N) invariant_new
        (by simp [new, hlen]; omega) with ⟨bk, hrun, _, hlenk, _⟩
    refine ⟨bk, hrun, ?_⟩
    have hbk : bk.len = k := by simpa [new, hlen] using hlenk
    simp only [is_full, hbk]
    exact beq_eq_false_iff_ne.mpr (by omega)
  · rcases pushAll_spec ts (new T N) invariant_new (by simp [new, hts]) with
      ⟨b, hrun, hInv, hlen, hderef⟩
    have hblen : b.len = N := by simpa [new, hts] using hlen
    refine ⟨b, hrun, by simp [is_full, hblen], ?_⟩
    rw [build_full hInv hblen, hderef, deref_new]
    simp

/-- Witness for C2: three pushes into an empty capacity-3 builder (and zero
pushes into a capacity-0 builder) fill it and `build` returns the pushed
elements in order. -/
theorem pushN_is_full_and_build_ok_witness :
    (([10, 20, 30] : List Nat).length = 3 ∧
      ((∀ k, k < 3 → ∃ bk,
          (new Nat 3).pushAll (([10, 20, 30] : List Nat).take k) = some bk ∧
          bk.is_full = false) ∧
       (∃ b, (new Nat 3).pushAll [10, 20, 30] = some b ∧ b.is_full = true ∧
          b.build = Except.ok [10, 20, 30]))) ∧
    (([] : List Nat).length = 0 ∧
      ((∀ k, k < 0 → ∃ bk,
          (new Nat 0).pushAll (([] : List Nat).take k) = some bk ∧
          bk.is_full = false) ∧
       (∃ b, (new Nat 0).pushAll [] = some b ∧ b.is_full = true ∧
          b.build = Except.ok []))) :=
  ⟨⟨rfl, pushN_is_full_and_build_ok [10, 20, 30] rfl⟩,
   ⟨rfl, pushN_is_full_and_build_ok [] rfl⟩⟩

/-- Claim C3 (code bug): `from(array)` does produce a full builder holding
the array's elements in order, but the no-double-release part of the claim
is false of the code: the by-value `array` parameter is dropped at the end
of `from` (nothing forgets it after the bitwise `ptr::read` copy), so every
adopted element is released once by `from` itself and a second time by the
builder's own drop.  For every array `a`, the call's own release list plus
the builder's drop release list is `a ++ a`; at the concrete failing input
`[0]` the single adopted element is released twice in total. -/
theorem from_adopted_element_released_twice :
    (∀ (T : Type) (a : List T),
        (from_call a).1.deref = a ∧
        (from_call a).1.len = a.length ∧
        (from_call a).1.is_full = true ∧
        (from_call a).2 ++ (from_call a).1.dropped = a ++ a) ∧
    ((from_call [0]).2 ++ (from_call [0]).1.dropped).count 0 = 2 := by
  constructor
  · intro T a
    refine ⟨deref_fromArray a, rfl, by simp [is_full, from_call, fromArray], ?_⟩
    show a ++ (fromArray a).dropped = a ++ a
    rw [show (fromArray a).dropped = a from deref_fromArray a]
  · decide

/-- Claim C4: `build()` on a builder with `len < N` fails and hands back the
very same builder (identical length and contents, nothing mutated);
on a builder with `len == N` it succeeds, yielding the live elements. -/
theorem build_err_returns_self_ok_when_full {T : Type} {N : Nat}
    (b : ArrayBuilder T N) (h : b.Invariant) :
    (b.len < N → b.build = Except.error b) ∧
    (b.len = N → b.build = Except.ok b.deref) :=
  ⟨fun hlt => build_not_full (by omega),
   fun hfull => build_full h hfull⟩

/-- Witness for C4: a capacity-2 builder with one element: `build` returns
the intact builder as the error value. -/
theorem build_err_returns_self_ok_when_full_witness :
    sampleC4.Invariant ∧
      ((sampleC4.len < 2 → sampleC4.build = Except.error sampleC4) ∧
       (sampleC4.len = 2 → sampleC4.build = Except.ok sampleC4.deref)) :=
  ⟨by decide, build_err_returns_self_ok_when_full sampleC4 (by decide)⟩

/-- Claim C5: `try_push(t)` behaves exactly like `push` when `len < N`
(appends `t` at index `len`, increments `len`, signals success), and when
`len == N` it returns `t` back unchanged and leaves the builder (length
and contents) untouched. -/
theorem try_push_like_push_or_rejects {T : Type} {N : Nat}
    (b : ArrayBuilder T N) (t : T) (h : b.Invariant) :
    (b.len < N → b.try_push t = (b.push_unchecked t, none) ∧
       b.push t = some (b.push_unchecked t) ∧
       (b.push_unchecked t).deref = b.deref ++ [t] ∧
       (b.push_unchecked t).len = b.len + 1) ∧
    (b.len = N → b.try_push t = (b, some t)) := by
  constructor
  · intro hlt
    exact ⟨by rw [try_push, if_pos hlt], push_some hlt,
      deref_push_unchecked t h hlt, rfl⟩
  · intro hfull
    rw [try_push, if_neg (by omega)]

/-- Witness for C5: `try_push` appends on a builder with space, and returns
the value back on a full builder. -/
theorem try_push_like_push_or_rejects_witness :
    (sampleC5.Invariant ∧
      ((sampleC5.len < 2 → sampleC5.try_push 7 = (sampleC5.push_unchecked 7, none) ∧
          sampleC5.push 7 = some (sampleC5.push_unchecked 7) ∧
          (sampleC5.push_unchecked 7).deref = sampleC5.deref ++ [7] ∧
          (sampleC5.push_unchecked 7).len = sampleC5.len + 1) ∧
       (sampleC5.len = 2 → sampleC5.try_push 7 = (sampleC5, some 7)))) ∧
    (sampleC5full.Invariant ∧
      ((sampleC5full.len < 2 →
          sampleC5full.try_push 7 = (sampleC5full.push_unchecked 7, none) ∧
          sampleC5full.push 7 = some (sampleC5full.push_unchecked 7) ∧
          (sampleC5full.push_unchecked 7).deref = sampleC5full.deref ++ [7] ∧
          (sampleC5full.push_unchecked 7).len = sampleC5full.len + 1) ∧
       (sampleC5full.len = 2 → sampleC5full.try_push 7 = (sampleC5full, some 7)))) :=
  ⟨⟨by decide, try_push_like_push_or_rejects sampleC5 7 (by decide)⟩,
   ⟨by decide, try_push_like_push_or_rejects sampleC5full 7 (by decide)⟩⟩

/-- Claim C6: `push(t)` panics exactly when the builder is full (`len == N`;
the `assert!` fires before any write, so the builder is unchanged and `t`
is not stored anywhere — in the embedding the panic path produces no
successor state at all); when `len < N` it stores `t` at index `len` and
increments `len`, leaving the earlier elements unchanged. -/
theorem push_panics_iff_full {T : Type} {N : Nat}
    (b : ArrayBuilder T N) (t : T) (h : b.Invariant) :
    (b.push t = none ↔ b.len = N) ∧
    (b.len < N → ∃ b', b.push t = some b' ∧ b'.len = b.len + 1 ∧
       b'.deref = b.deref ++ [t]) := by
  constructor
  · constructor
    · intro hn
      by_contra hne
      have hlt : b.len < N := by
        have := h.2.1
        omega
      rw [push_some hlt] at hn
      exact Option.noConfusion hn
    · intro hfull
      exact push_none (by omega)
  · intro hlt
    exact ⟨_, push_some hlt, rfl, deref_push_unchecked t h hlt⟩

/-- Witness for C6: pushing onto a full capacity-2 builder panics; pushing
onto a one-element capacity-2 builder appends. -/
theorem push_panics_iff_full_witness :
    (sampleC6full.Invariant ∧
      ((sampleC6full.push 7 = none ↔ sampleC6full.len = 2) ∧
       (sampleC6full.len < 2 → ∃ b', sampleC6full.push 7 = some b' ∧
          b'.len = sampleC6full.len + 1 ∧
          b'.deref = sampleC6full.deref ++ [7]))) ∧
    (sampleC6.Invariant ∧
      ((sampleC6.push 7 = none ↔ sampleC6.len = 2) ∧
       (sampleC6.len < 2 → ∃ b', sampleC6.push 7 = some b' ∧
          b'.len = sampleC6.len + 1 ∧
          b'.deref = sampleC6.deref ++ [7]))) :=
  ⟨⟨by decide, push_panics_iff_full sampleC6full 7 (by decide)⟩,
   ⟨by decide, push_panics_iff_full sampleC6 7 (by decide)⟩⟩

/-- Claim C7: `pop()` on a non-empty builder removes and returns the
last-inserted live element (decrementing `len`, all other elements
unchanged: the old live prefix is the new live prefix plus the returned
element); on an empty builder it returns `None` with no state change.
Concretely, for a capacity-4 builder `[1,2,3,4]`, `pop` yields `4` and a
subsequent `push 16` gives `build = Ok [1,2,3,16]`. -/
theorem pop_returns_last_or_none {T : Type} {N : Nat}
    (b : ArrayBuilder T N) (h : b.Invariant) :
    (0 < b.len → ∃ x, b.pop = (some x, { buf := b.buf, len := b.len - 1 }) ∧
        b.deref = (b.pop).2.deref ++ [x] ∧ (b.pop).2.len = b.len - 1) ∧
    (b.len = 0 → b.pop = (none, b)) ∧
    ((fromArray [1, 2, 3, 4]).pop.1 = some 4 ∧
      (fromArray [1, 2, 3, 4]).pop.2.push 16
        = some { buf := [some 1, some 2, some 3, some 16], len := 4 } ∧
      ({ buf := [some 1, some 2, some 3, some 16], len := 4 } :
        ArrayBuilder Nat 4).build = Except.ok [1, 2, 3, 16]) := by
  refine ⟨?_, ?_, by decide, by decide, rfl⟩
  · intro hpos
    rcases pop_unchecked_spec h hpos with ⟨x, hx, hderef⟩
    have hpop : b.pop = b.pop_unchecked := by rw [pop, if_pos hpos]
    refine ⟨x, by rw [hpop, hx], ?_, by rw [hpop, hx]⟩
    rw [hpop]
    exact hderef
  · intro h0
    rw [pop, if_neg (by omega)]

/-- Witness for C7: popping a capacity-3 builder holding two elements. -/
theorem pop_returns_last_or_none_witness :
    sampleC7.Invariant ∧
      ((0 < sampleC7.len → ∃ x,
          sampleC7.pop = (some x, { buf := sampleC7.buf, len := sampleC7.len - 1 }) ∧
          sampleC7.deref = (sampleC7.pop).2.deref ++ [x] ∧
          (sampleC7.pop).2.len = sampleC7.len - 1) ∧
       (sampleC7.len = 0 → sampleC7.pop = (none, sampleC7)) ∧
       ((fromArray [1, 2, 3, 4]).pop.1 = some 4 ∧
         (fromArray [1, 2, 3, 4]).pop.2.push 16
           = some { buf := [some 1, some 2, some 3, some 16], len := 4 } ∧
         ({ buf := [some 1, some 2, some 3, some 16], len := 4 } :
           ArrayBuilder Nat 4).build = Except.ok [1, 2, 3, 16])) :=
  ⟨by decide, pop_returns_last_or_none sampleC7 (by decide)⟩

/-- Claim C8: `take()` (i.e. `mem::replace(self, Self::new())`) returns the
previous builder value unchanged and leaves the variable holding a fresh
empty builder; for the full capacity-4 builder `[1,2,3,4]`, the original
becomes empty and the taken builder is full. -/
theorem take_swaps_in_empty {T : Type} {N : Nat} (b : ArrayBuilder T N) :
    (b.take).2 = b ∧
    (b.take).1.len = 0 ∧
    (b.take).1.deref = [] ∧
    (b.take).1.Invariant ∧
    ((fromArray [1, 2, 3, 4]).take.1.is_empty = true ∧
      (fromArray [1, 2, 3, 4]).take.2.is_full = true) :=
  ⟨rfl, rfl, deref_new, invariant_new, by decide, by decide⟩

/-- Claim C9: two builders of the same capacity compare equal exactly when
they have the same length and the same elements in the same order; a same
live prefix makes them equal regardless of what sits in the unused slots;
and the `Ord` comparison is element-wise lexicographic on the live
prefixes, a proper prefix comparing as less. -/
theorem eq_iff_same_contents_ord_lex {T : Type} {N : Nat} [BEq T] [LawfulBEq T]
    (cmp : T → T → Ordering) (hc : ∀ x, cmp x x = .eq)
    (b₁ b₂ : ArrayBuilder T N) (h₁ : b₁.Invariant) (h₂ : b₂.Invariant) :
    (beq b₁ b₂ = true ↔ (b₁.len = b₂.len ∧ b₁.deref = b₂.deref)) ∧
    (b₁.len = b₂.len → b₁.buf.take b₁.len = b₂.buf.take b₂.len →
      beq b₁ b₂ = true) ∧
    (∀ y rest, b₂.deref = b₁.deref ++ y :: rest →
      ord_cmp cmp b₁ b₂ = .lt) ∧
    (∀ p x y xs ys, cmp x y ≠ .eq → b₁.deref = p ++ x :: xs →
      b₂.deref = p ++ y :: ys → ord_cmp cmp b₁ b₂ = cmp x y) := by
  refine ⟨⟨?_, ?_⟩, ?_, ?_, ?_⟩
  · intro hb
    rw [beq, beq_iff_eq] at hb
    exact ⟨by rw [← deref_length h₁, ← deref_length h₂, hb], hb⟩
  · rintro ⟨-, hd⟩
    rw [beq, beq_iff_eq]
    exact hd
  · intro hlen htake
    rw [beq, beq_iff_eq]
    show (b₁.buf.take b₁.len).reduceOption = (b₂.buf.take b₂.len).reduceOption
    rw [htake]
  · intro y rest hsplit
    rw [ord_cmp, hsplit]
    exact slice_cmp_self_append cmp hc b₁.deref y rest
  · intro p x y xs ys hxy hx hy
    rw [ord_cmp, hx, hy]
    exact slice_cmp_first_diff cmp hc p x y xs ys hxy

/-- Witness for C9: two capacity-3 builders with identical live prefixes
`[1, 2]` but different contents in the unused third slot. -/
theorem eq_iff_same_contents_ord_lex_witness :
    (∀ x : Nat, compare x x = .eq) ∧
    sampleC9a.Invariant ∧ sampleC9b.Invariant ∧
      ((beq sampleC9a sampleC9b = true ↔
          (sampleC9a.len = sampleC9b.len ∧ sampleC9a.deref = sampleC9b.deref)) ∧
       (sampleC9a.len = sampleC9b.len →
          sampleC9a.buf.take sampleC9a.len = sampleC9b.buf.take sampleC9b.len →
          beq sampleC9a sampleC9b = true) ∧
       (∀ y rest, sampleC9b.deref = sampleC9a.deref ++ y :: rest →
          ord_cmp compare sampleC9a sampleC9b = .lt) ∧
       (∀ p x y xs ys, compare x y ≠ .eq → sampleC9a.deref = p ++ x :: xs →
          sampleC9b.deref = p ++ y :: ys →
          ord_cmp compare sampleC9a sampleC9b = compare x y)) :=
  ⟨fun _ => Nat.compare_eq_eq.mpr rfl, by decide, by decide,
    eq_iff_same_contents_ord_lex compare (fun _ => Nat.compare_eq_eq.mpr rfl)
      sampleC9a sampleC9b (by decide) (by decide)⟩

/-- Claim C10: every safe operation preserves the invariant
(`len ≤ N`, buffer of length `N`, slots `[0, len)` initialized — holding
exactly the live elements in insertion order, `buf.take len = deref.map some`);
`new` establishes `len = 0` and `from` establishes `len = N`; and no safe
operation ever reads or exposes a slot in `[len, N)`: two builders agreeing
on `len` and the live prefix are indistinguishable through every safe
operation (`ObsEq` congruence). -/
theorem safe_ops_invariant_and_no_dead_reads {T : Type} {N : Nat}
    (b b₂ : ArrayBuilder T N) (t : T) (a : List T)
    (h : b.Invariant) (h₂ : b₂.Invariant) (hobs : ObsEq b b₂) :
    ((new T N).Invariant ∧ (new T N).len = 0) ∧
    ((fromArray a).Invariant ∧ (fromArray a).len = a.length) ∧
    (b.len ≤ N ∧ b.buf.take b.len = b.deref.map some ∧
      b.deref.length = b.len) ∧
    (∀ b', b.push t = some b' → b'.Invariant) ∧
    (b.try_push t).1.Invariant ∧
    (b.pop).2.Invariant ∧
    (b.clear).1.Invariant ∧
    ((b.take).1.Invariant ∧ (b.take).2.Invariant) ∧
    (∀ b', b.build = Except.error b' → b'.Invariant) ∧
    (b.is_full = b₂.is_full ∧
     b.is_empty = b₂.is_empty ∧
     (b.pop).1 = (b₂.pop).1 ∧
     ObsEq (b.pop).2 (b₂.pop).2 ∧
     (b.clear).2 = (b₂.clear).2 ∧
     (∀ b' b₂', b.push t = some b' → b₂.push t = some b₂' → ObsEq b' b₂') ∧
     (b.try_push t).2 = (b₂.try_push t).2 ∧
     ObsEq (b.try_push t).1 (b₂.try_push t).1 ∧
     (∀ v, b.build = Except.ok v ↔ b₂.build = Except.ok v)) := by
  obtain ⟨hlen, hderef⟩ := hobs
  refine ⟨⟨invariant_new, rfl⟩, ⟨invariant_fromArray a, rfl⟩,
    ⟨h.2.1, take_map_some h, deref_length h⟩, ?_, ?_, ?_, invariant_clear_state h,
    ⟨invariant_new, h⟩, ?_, ?_, ?_, ?_, ?_, hderef, ?_, ?_, ?_, ?_⟩
  · intro b' hb'
    by_cases hlt : b.len < N
    · rw [push_some hlt] at hb'
      cases hb'
      exact invariant_push_unchecked t h hlt
    · rw [push_none hlt] at hb'
      exact Option.noConfusion hb'
  · by_cases hlt : b.len < N
    · rw [try_push, if_pos hlt]
      exact invariant_push_unchecked t h hlt
    · rw [try_push, if_neg hlt]
      exact h
  · by_cases hpos : 0 < b.len
    · rw [pop, if_pos hpos]
      exact invariant_pop_state h
    · rw [pop, if_neg hpos]
      exact h
  · intro b' hb'
    by_cases hfull : b.len = N
    · rw [build_full h hfull] at hb'
      exact Except.noConfusion hb'
    · rw [build_not_full hfull] at hb'
      cases hb'
      exact h
  · rw [is_full, is_full, hlen]
  · rw [is_empty, is_empty, hlen]
  · by_cases hpos : 0 < b.len
    · have hpos₂ : 0 < b₂.len := by omega
      rw [pop, pop, if_pos hpos, if_pos hpos₂]
      show b.buf.getD (b.len - 1) none = b₂.buf.getD (b₂.len - 1) none
      rw [slot_eq_deref_getElem? h (by omega), slot_eq_deref_getElem? h₂ (by omega),
        hlen, hderef]
    · have hpos₂ : ¬ 0 < b₂.len := by omega
      rw [pop, pop, if_neg hpos, if_neg hpos₂]
  · by_cases hpos : 0 < b.len
    · have hpos₂ : 0 < b₂.len := by omega
      rw [pop, pop, if_pos hpos, if_pos hpos₂]
      exact ⟨by show b.len - 1 = b₂.len - 1; omega,
        by rw [show (b.pop_unchecked.2).deref
              = ({ buf := b.buf, len := b.len - 1 } : ArrayBuilder T N).deref from rfl,
            show (b₂.pop_unchecked.2).deref
              = ({ buf := b₂.buf, len := b₂.len - 1 } : ArrayBuilder T N).deref from rfl,
            deref_pop_state h, deref_pop_state h₂, hlen, hderef]⟩
    · have hpos₂ : ¬ 0 < b₂.len := by omega
      rw [pop, pop, if_neg hpos, if_neg hpos₂]
      exact ⟨hlen, hderef⟩
  · intro b' b₂' hb' hb₂'
    by_cases hlt : b.len < N
    · have hlt₂ : b₂.len < N := by omega
      rw [push_some hlt] at hb'
      rw [push_some hlt₂] at hb₂'
      cases hb'
      cases hb₂'
      exact ⟨by show b.len + 1 = b₂.len + 1; omega,
        by rw [deref_push_unchecked t h hlt, deref_push_unchecked t h₂ hlt₂, hderef]⟩
    · rw [push_none hlt] at hb'
      exact Option.noConfusion hb'
  · by_cases hlt : b.len < N
    · have hlt₂ : b₂.len < N := by omega
      rw [try_push, try_push, if_pos hlt, if_pos hlt₂]
    · have hlt₂ : ¬ b₂.len < N := by omega
      rw [try_push, try_push, if_neg hlt, if_neg hlt₂]
  · by_cases hlt : b.len < N
    · have hlt₂ : b₂.len < N := by omega
      rw [try_push, try_push, if_pos hlt, if_pos hlt₂]
      exact ⟨by show b.len + 1 = b₂.len + 1; omega,
        by rw [deref_push_unchecked t h hlt, deref_push_unchecked t h₂ hlt₂, hderef]⟩
    · have hlt₂ : ¬ b₂.len < N := by omega
      rw [try_push, try_push, if_neg hlt, if_neg hlt₂]
      exact ⟨hlen, hderef⟩
  · intro v
    by_cases hfull : b.len = N
    · have hfull₂ : b₂.len = N := by omega
      rw [build_full h hfull, build_full h₂ hfull₂, hderef]
    · have hfull₂ : ¬ b₂.len = N := by omega
      rw [build_not_full hfull, build_not_full hfull₂]
      constructor
      · intro hv
        exact Except.noConfusion hv
      · intro hv
        exact Except.noConfusion hv

/-- Witness for C10: two capacity-2 builders with live prefix `[1]` and
different contents in their unused slot. -/
theorem safe_ops_invariant_and_no_dead_reads_witness :
    sampleC10a.Invariant ∧ sampleC10b.Invariant ∧ ObsEq sampleC10a sampleC10b ∧
      (((new Nat 2).Invariant ∧ (new Nat 2).len = 0) ∧
       ((fromArray [3, 4]).Invariant ∧ (fromArray [3, 4]).len = [3, 4].length) ∧
       (sampleC10a.len ≤ 2 ∧
         sampleC10a.buf.take sampleC10a.len = sampleC10a.deref.map some ∧
         sampleC10a.deref.length = sampleC10a.len) ∧
       (∀ b', sampleC10a.push 5 = some b' → b'.Invariant) ∧
       (sampleC10a.try_push 5).1.Invariant ∧
       (sampleC10a.pop).2.Invariant ∧
       (sampleC10a.clear).1.Invariant ∧
       ((sampleC10a.take).1.Invariant ∧ (sampleC10a.take).2.Invariant) ∧
       (∀ b', sampleC10a.build = Except.error b' → b'.Invariant) ∧
       (sampleC10a.is_full = sampleC10b.is_full ∧
        sampleC10a.is_empty = sampleC10b.is_empty ∧
        (sampleC10a.pop).1 = (sampleC10b.pop).1 ∧
        ObsEq (sampleC10a.pop).2 (sampleC10b.pop).2 ∧
        (sampleC10a.clear).2 = (sampleC10b.clear).2 ∧
        (∀ b' b₂', sampleC10a.push 5 = some b' → sampleC10b.push 5 = some b₂' →
          ObsEq b' b₂') ∧
        (sampleC10a.try_push 5).2 = (sampleC10b.try_push 5).2 ∧
        ObsEq (sampleC10a.try_push 5).1 (sampleC10b.try_push 5).1 ∧
        (∀ v, sampleC10a.build = Except.ok v ↔ sampleC10b.build = Except.ok v))) :=
  ⟨by decide, by decide, by decide,
    safe_ops_invariant_and_no_dead_reads sampleC10a sampleC10b 5 [3, 4]
      (by decide) (by decide) (by decide)⟩

end ArrayBuilder

end ArrayBuilderSpec
